import Mathlib

/-!
Verification development for the deterministic simulation runtime.

The Rust sources embedded here are
`src/simulation/src/deterministic/mod.rs` (runtime construction and the
environment handle) and
`src/simulation/src/deterministic/network/listen.rs` (the listener).
The PRNG (`random.rs`), the virtual clock (`time.rs`) and the network
fabric internals are not part of the provided sources; where a claim
depends on them they are modelled from the specification, and each such
definition says so in its doc comment.

Machine integers are modelled as `Nat` with explicit reduction mod
`2 ^ 64` where 64-bit wrap-around matters; fallible operations return an
explicit result type mirroring Rust's `Result`.
-/

namespace Simulation

/-- A socket address `(ip, port)`; IPs are abstracted to numbers. -/
structure SocketAddr where
  ip : Nat
  port : Nat
deriving DecidableEq, Repr

/-- The error kinds surfaced to the application (spec section 7). -/
inductive IOErrorKind where
  | NotConnected
  | ConnectionRefused
  | AddrInUse
  | ConnectionReset
  | Elapsed
  | Other
deriving DecidableEq, Repr

/-- An `io::Error`, reduced to its kind. -/
structure IOError where
  kind : IOErrorKind
deriving DecidableEq, Repr

/-- Mirror of Rust's `Result<A, io::Error>`. -/
inductive IOResult (α : Type) where
  | ok (a : α)
  | err (e : IOError)
deriving DecidableEq, Repr

/-- 64-bit modulus. -/
def u64Mod : Nat := 2 ^ 64

/-- Modelled from the spec: the SplitMix64 output mixer (the spec fixes a
`SplitMix64`-style PRNG whose algorithm is the implementation's choice but
frozen; `random.rs` is not among the provided sources). -/
def mix64 (z : Nat) : Nat :=
  let z1 := ((z ^^^ (z >>> 30)) * 0xBF58476D1CE4E5B9) % u64Mod
  let z2 := ((z1 ^^^ (z1 >>> 27)) * 0x94D049BB133111EB) % u64Mod
  (z2 ^^^ (z2 >>> 31)) % u64Mod

/-- Modelled from the spec: the SplitMix64 additive constant. -/
def goldenGamma : Nat := 0x9E3779B97F4A7C15

/-- Modelled from the spec: PRNG state, a single 64-bit word advanced by
`next_u64` (spec section 4.1, `random.rs` missing from the sources). -/
structure DeterministicRandom where
  state : Nat
deriving DecidableEq, Repr

/-- Modelled from the spec: `new(seed: u64) → Prng`. -/
def DeterministicRandom.new_with_seed (seed : Nat) : DeterministicRandom :=
  ⟨seed % u64Mod⟩

/-- Modelled from the spec: `next_u64` draws one value and advances the
state (SplitMix64: add the gamma, output the mix of the new state). -/
def DeterministicRandom.next_u64 (p : DeterministicRandom) :
    Nat × DeterministicRandom :=
  let s := (p.state + goldenGamma) % u64Mod
  (mix64 s, ⟨s⟩)

/-- Modelled from the spec: `fork` draws once from the parent and seeds the
child with `mix(parent.next_u64())`; returns `(child, advanced parent)`. -/
def DeterministicRandom.fork (p : DeterministicRandom) :
    DeterministicRandom × DeterministicRandom :=
  let v := p.next_u64
  (⟨mix64 v.1⟩, v.2)

/-- The next `n` draws of a PRNG handle, in order. -/
def DeterministicRandom.draws : DeterministicRandom → Nat → List Nat
  | _, 0 => []
  | p, n + 1 =>
    let v := p.next_u64
    v.1 :: v.2.draws n

/-- One operation of a PRNG session: draw from, or fork, the handle at a
given index of the handle store. -/
inductive PrngOp where
  | draw (i : Nat)
  | fork (i : Nat)
deriving DecidableEq, Repr

/-- The handle an operation acts on. -/
def PrngOp.handleIndex : PrngOp → Nat
  | .draw i => i
  | .fork i => i

/-- Apply one session operation to the handle store: a draw advances the
indexed handle in place; a fork advances it and appends the child at the
end of the store. Out-of-range indices leave the store unchanged. -/
def applyOp (hs : List DeterministicRandom) (op : PrngOp) :
    List DeterministicRandom :=
  match op with
  | .draw i =>
    match hs.get? i with
    | some p => hs.set i (p.next_u64).2
    | none => hs
  | .fork i =>
    match hs.get? i with
    | some p => (hs.set i (p.fork).2) ++ [(p.fork).1]
    | none => hs

/-- Apply a whole session, left to right. -/
def applyOps (hs : List DeterministicRandom) (ops : List PrngOp) :
    List DeterministicRandom :=
  ops.foldl applyOp hs

/-- The future draws of the first handle of a store. -/
def headDraws (hs : List DeterministicRandom) (n : Nat) : List Nat :=
  match hs.head? with
  | some p => p.draws n
  | none => []

lemma applyOp_head? (hs : List DeterministicRandom) (op : PrngOp)
    (hop : 1 ≤ op.handleIndex) :
    (applyOp hs op).head? = hs.head? := by
  obtain ⟨i, rfl⟩ | ⟨i, rfl⟩ : (∃ i, op = PrngOp.draw i) ∨ (∃ i, op = PrngOp.fork i) := by
    cases op with
    | draw i => exact Or.inl ⟨i, rfl⟩
    | fork i => exact Or.inr ⟨i, rfl⟩
  all_goals
    simp only [PrngOp.handleIndex] at hop
    obtain ⟨j, rfl⟩ := Nat.exists_eq_add_of_le hop
    cases hs with
    | nil => simp [applyOp]
    | cons x xs =>
      simp only [applyOp]
      cases h : (x :: xs).get? (1 + j) <;> simp [List.set, Nat.add_comm 1 j]

lemma applyOp_ne_nil (hs : List DeterministicRandom) (op : PrngOp)
    (hne : hs ≠ []) : applyOp hs op ≠ [] := by
  cases op with
  | draw i =>
    simp only [applyOp]
    cases h : hs.get? i
    · exact hne
    · intro hcon
      exact hne (List.eq_nil_of_length_eq_zero (by
        have := congrArg List.length hcon
        simpa using this))
  | fork i =>
    simp only [applyOp]
    cases h : hs.get? i
    · exact hne
    · simp

lemma applyOps_head? (hs : List DeterministicRandom) (ops : List PrngOp)
    (hops : ∀ op ∈ ops, 1 ≤ op.handleIndex) :
    (applyOps hs ops).head? = hs.head? := by
  induction ops generalizing hs with
  | nil => rfl
  | cons op rest ih =>
    have h1 : 1 ≤ op.handleIndex := hops op (List.mem_cons_self op rest)
    have h2 : ∀ o ∈ rest, 1 ≤ o.handleIndex := fun o ho =>
      hops o (List.mem_cons_of_mem op ho)
    calc (applyOps hs (op :: rest)).head?
        = (applyOps (applyOp hs op) rest).head? := rfl
      _ = (applyOp hs op).head? := ih (applyOp hs op) h2
      _ = hs.head? := applyOp_head? hs op h1

/-- A simulated socket half as the listener sees it. The peer-address
query result is stored as a field: `SocketHalf` itself is not among the
provided sources, and the spec's data model gives each half a stored
`peer_addr`; carrying the query's `IOResult` keeps the fallibility that
`Listener::accept` propagates with `?`. -/
structure SimSocket where
  sockId : Nat
  peer_addr : IOResult SocketAddr
deriving DecidableEq, Repr

/-- The receiver end of the listener's bounded mpsc inbound channel:
the queue of buffered connections in arrival order, plus whether the
sender side is still alive. -/
structure Receiver where
  queue : List SimSocket
  senderAlive : Bool
deriving DecidableEq, Repr

/-- Outcome of `incoming.next().await` on the channel receiver. -/
inductive NextOutcome where
  | item (s : SimSocket)
  | closed
  | pending
deriving DecidableEq, Repr

/-- `next().await` on an mpsc receiver: the front item if one is
buffered; end of stream if the channel is empty and the sender is gone;
otherwise the future suspends. -/
def Receiver.next : Receiver → NextOutcome × Receiver
  | ⟨s :: rest, alive⟩ => (.item s, ⟨rest, alive⟩)
  | ⟨[], true⟩ => (.pending, ⟨[], true⟩)
  | ⟨[], false⟩ => (.closed, ⟨[], false⟩)

/-- `Listener` from `listen.rs`: a local address and the receiving end of
the inbound channel. -/
structure Listener where
  localAddr : SocketAddr
  incoming : Receiver
deriving DecidableEq, Repr

/-- `Listener::new` from `listen.rs`. -/
def Listener.new (local_addr : SocketAddr) (incoming : Receiver) : Listener :=
  { localAddr := local_addr, incoming := incoming }

/-- Result of one `accept().await`: a socket with its peer address, an
error, or suspension (channel empty, sender alive). -/
inductive AcceptOutcome where
  | ok (s : SimSocket) (a : SocketAddr)
  | err (e : IOError)
  | pending
deriving DecidableEq, Repr

/-- `Listener::accept` from `listen.rs`: awaits the next inbound socket;
on an item, queries its `peer_addr` and propagates a failure with `?`;
on a closed channel, returns `ErrorKind::NotConnected`. -/
def Listener.accept (l : Listener) : AcceptOutcome × Listener :=
  match Receiver.next l.incoming with
  | (NextOutcome.item s, rx) =>
    match s.peer_addr with
    | IOResult.ok a => (.ok s a, { l with incoming := rx })
    | IOResult.err e => (.err e, { l with incoming := rx })
  | (NextOutcome.closed, rx) => (.err ⟨IOErrorKind.NotConnected⟩, { l with incoming := rx })
  | (NextOutcome.pending, rx) => (.pending, { l with incoming := rx })

/-- `Listener::local_addr` from `listen.rs`: always `Ok(self.local_addr)`. -/
def Listener.local_addr (l : Listener) : IOResult SocketAddr :=
  IOResult.ok l.localAddr

/-- `ListenerStream` from `listen.rs`, produced by `into_stream`. -/
structure ListenerStream where
  incoming : Receiver
deriving DecidableEq, Repr

/-- `Listener::into_stream` from `listen.rs`: moves the receiver into a
`ListenerStream`, discarding the local address. -/
def Listener.into_stream (l : Listener) : ListenerStream :=
  ⟨l.incoming⟩

/-- Result of one `poll_next` on a `ListenerStream`. -/
inductive StreamPoll where
  | yield (s : SimSocket)
  | finished
  | pending
deriving DecidableEq, Repr

/-- `ListenerStream::poll_next` from `listen.rs`: a buffered item is
yielded as `Ok`, channel end terminates the stream, otherwise pending. -/
def ListenerStream.poll_next (st : ListenerStream) : StreamPoll × ListenerStream :=
  match Receiver.next st.incoming with
  | (NextOutcome.item s, rx) => (.yield s, ⟨rx⟩)
  | (NextOutcome.closed, rx) => (.finished, ⟨rx⟩)
  | (NextOutcome.pending, rx) => (.pending, ⟨rx⟩)

/-- `n` successive `accept` calls: the list of outcomes and the final
listener state. -/
def Listener.acceptN : Listener → Nat → List AcceptOutcome × Listener
  | l, 0 => ([], l)
  | l, n + 1 =>
    let r := l.accept
    let rest := r.2.acceptN n
    (r.1 :: rest.1, rest.2)

/-- The sockets successfully yielded by a list of accept outcomes. -/
def acceptedSockets (outs : List AcceptOutcome) : List SimSocket :=
  outs.filterMap fun o =>
    match o with
    | .ok s _ => some s
    | _ => none

/-- Collect up to `n` sockets from a `ListenerStream`, stopping at the
first poll that does not yield an item. -/
def ListenerStream.collectN : ListenerStream → Nat → List SimSocket
  | _, 0 => []
  | st, n + 1 =>
    match st.poll_next with
    | (.yield s, st2) => s :: st2.collectN n
    | (_, _) => []

lemma accept_localAddr (l : Listener) : (l.accept).2.localAddr = l.localAddr := by
  unfold Listener.accept
  rcases l with ⟨a, q, alive⟩
  rcases q with _ | ⟨s, rest⟩
  · cases alive <;> simp [Receiver.next]
  · cases h : s.peer_addr <;> simp [Receiver.next, h]

lemma acceptN_localAddr (l : Listener) (n : Nat) :
    (l.acceptN n).2.localAddr = l.localAddr := by
  induction n generalizing l with
  | zero => rfl
  | succ m ih =>
    show ((l.accept).2.acceptN m).2.localAddr = l.localAddr
    rw [ih, accept_localAddr]

lemma accept_empty_queue (a : SocketAddr) (alive : Bool) :
    (Listener.accept ⟨a, ⟨[], alive⟩⟩).2 = ⟨a, ⟨[], alive⟩⟩ := by
  cases alive <;> rfl

lemma acceptN_fifo (l : Listener) (n : Nat)
    (h : ∀ s ∈ l.incoming.queue, ∃ a, s.peer_addr = IOResult.ok a) :
    acceptedSockets (l.acceptN n).1 = l.incoming.queue.take n := by
  induction n generalizing l with
  | zero => simp [Listener.acceptN, acceptedSockets]
  | succ m ih =>
    rcases l with ⟨addr, q, alive⟩
    rcases q with _ | ⟨s, rest⟩
    · show acceptedSockets ((Listener.accept _).1 ::
        ((Listener.accept _).2.acceptN m).1) = []
      rw [accept_empty_queue]
      have htail := ih ⟨addr, ⟨[], alive⟩⟩ (by intro s hs; cases hs)
      cases alive <;>
        simpa [Listener.accept, Receiver.next, acceptedSockets] using htail
    · obtain ⟨pa, hpa⟩ := h s (List.mem_cons_self s rest)
      have htail := ih ⟨addr, ⟨rest, alive⟩⟩ (by
        intro x hx
        exact h x (List.mem_cons_of_mem s hx))
      show acceptedSockets ((Listener.accept _).1 ::
        ((Listener.accept _).2.acceptN m).1) = s :: rest.take m
      simp only [Listener.accept, Receiver.next, hpa] at *
      simpa [acceptedSockets] using htail

lemma collectN_fifo (st : ListenerStream) (n : Nat) :
    st.collectN n = st.incoming.queue.take n := by
  induction n generalizing st with
  | zero => rfl
  | succ m ih =>
    rcases st with ⟨q, alive⟩
    rcases q with _ | ⟨s, rest⟩
    · cases alive <;> rfl
    · show s :: ListenerStream.collectN ⟨⟨rest, alive⟩⟩ m = s :: rest.take m
      rw [ih ⟨⟨rest, alive⟩⟩]

/-- The OS reactor injected as the clock's park fallback. It is an
external collaborator (out of scope per the spec); only the success or
failure of `driver::Reactor::new()` matters to the runtime, so the
outcome is a parameter of runtime construction. -/
structure Reactor where
  reactorId : Nat
deriving DecidableEq, Repr

/-- A timer entry of the virtual clock (spec data model):
deadline, monotone insertion id, and the blocked task the stored waker
belongs to. -/
structure TimerEntry where
  deadline : Nat
  timerId : Nat
  taskId : Nat
deriving DecidableEq, Repr

/-- Modelled from the spec: the virtual clock's state (`time.rs` is not
among the provided sources): current instant in nanoseconds, ordered
pending timer set, monotone next timer id, plus the injected park
fallback reactor. -/
structure DeterministicTime where
  reactor : Reactor
  now : Nat
  pending : List TimerEntry
  nextTimerId : Nat
deriving DecidableEq, Repr

/-- Modelled from the spec: `DeterministicTime::new_with_park(reactor)`
starts at the epoch with no pending timers. -/
def DeterministicTime.new_with_park (r : Reactor) : DeterministicTime :=
  ⟨r, 0, [], 0⟩

/-- Modelled from the spec: the network fabric's construction-time state
(the fabric sources beyond `listen.rs` are not provided): it captures a
clock handle and starts with an empty endpoint registry mapping
addresses to listener channels. -/
structure DeterministicNetwork where
  time_handle : DeterministicTime
  endpoints : List (SocketAddr × Nat)
deriving DecidableEq, Repr

/-- Modelled from the spec: `DeterministicNetwork::new(time_handle)`. -/
def DeterministicNetwork.new (t : DeterministicTime) : DeterministicNetwork :=
  ⟨t, []⟩

/-- Modelled from the spec: the cooperative executor
(`CurrentThread::new_with_park(time)`): the clock as park strategy, a
FIFO ready queue of task ids, and a monotone task-id counter. -/
structure CurrentThread where
  park : DeterministicTime
  ready : List Nat
  nextTaskId : Nat
deriving DecidableEq, Repr

/-- Modelled from the spec: `CurrentThread::new_with_park(time)` starts
with an empty ready queue. -/
def CurrentThread.new_with_park (t : DeterministicTime) : CurrentThread :=
  ⟨t, [], 0⟩

/-- The four core components, named after the spec's component table:
C1 = PRNG (`randomC`), C2 = virtual clock (`timeC`),
C3 = cooperative scheduler (`executorC`), C4 = network fabric
(`networkC`). -/
inductive Component where
  | randomC
  | timeC
  | executorC
  | networkC
deriving DecidableEq, Repr

/-- `crate::Error` as used by `DeterministicRuntime` in `mod.rs`. -/
inductive RError where
  | RuntimeBuild (source : IOError)
  | CurrentThreadRun (source : IOError)
deriving DecidableEq, Repr

/-- `DeterministicRuntime` from `mod.rs`: executor, clock handle,
network, PRNG. The `time_handle` and the executor's park strategy are
two handles onto the one clock created at construction. -/
structure DeterministicRuntime where
  executor : CurrentThread
  time_handle : DeterministicTime
  network : DeterministicNetwork
  random : DeterministicRandom
deriving DecidableEq, Repr

/-- `DeterministicRuntime::new_with_seed` from `mod.rs`: builds the
reactor (`?`-propagating its failure as `Error::RuntimeBuild`), then the
clock, then the network, then the executor, then the PRNG. The second
component of the result records, in order, which of the four core
components each successive statement of the source constructs. -/
def DeterministicRuntime.new_with_seed (seed : Nat)
    (reactorResult : IOResult Reactor) :
    Except RError (DeterministicRuntime × List Component) :=
  match reactorResult with
  | IOResult.err source => Except.error (RError.RuntimeBuild source)
  | IOResult.ok reactor =>
    let time := DeterministicTime.new_with_park reactor
    let time_handle := time
    let network := DeterministicNetwork.new time_handle
    let executor := CurrentThread.new_with_park time
    let random := DeterministicRandom.new_with_seed seed
    Except.ok (⟨executor, time_handle, network, random⟩,
      [Component.timeC, Component.networkC, Component.executorC,
        Component.randomC])

/-- `DeterministicRuntime::new` from `mod.rs`:
`DeterministicRuntime::new_with_seed(0)`. -/
def DeterministicRuntime.new (reactorResult : IOResult Reactor) :
    Except RError (DeterministicRuntime × List Component) :=
  DeterministicRuntime.new_with_seed 0 reactorResult

/-- The construction order recorded by a successful `new_with_seed`. -/
def constructionLog (seed : Nat) (reactorResult : IOResult Reactor) :
    Option (List Component) :=
  match DeterministicRuntime.new_with_seed seed reactorResult with
  | Except.ok p => some p.2
  | Except.error _ => none

/-- A deep embedding of the application programs driven by the runtime,
over the environment surface the claims mention: observing `now()`,
awaiting `delay(deadline)` / `delay_from(duration)`, spawning, drawing
from the runtime PRNG, and writing/reading bytes on a socket link. -/
inductive Prog where
  | done : Prog
  | getNow (k : Nat → Prog) : Prog
  | delay (deadline : Nat) (k : Prog) : Prog
  | delay_from (d : Nat) (k : Prog) : Prog
  | spawn (child : Prog) (k : Prog) : Prog
  | draw (k : Nat → Prog) : Prog
  | send (link : Nat) (bytes : List Nat) (k : Prog) : Prog
  | recv (link : Nat) (k : List Nat → Prog) : Prog

/-- An externally observable event of a run: a `now()` observation by a
task, or bytes delivered into a socket link's buffer. -/
inductive Event where
  | obsNow (taskId : Nat) (t : Nat)
  | deliver (link : Nat) (bytes : List Nat)
deriving DecidableEq, Repr

/-- A task: its id and its remaining program. -/
structure SimTask where
  taskId : Nat
  prog : Prog

/-- The whole simulation state: the virtual clock, the runtime PRNG,
the scheduler's FIFO ready queue plus the queue for the next turn,
blocked task continuations keyed by task id, tasks waiting on empty
link buffers, the link buffers, the monotone task-id counter, and the
event trace. -/
structure SimState where
  time : DeterministicTime
  random : DeterministicRandom
  ready : List SimTask
  nextReady : List SimTask
  blocked : List (Nat × Prog)
  recvWaiters : List (Nat × SimTask)
  links : List (Nat × List Nat)
  nextTaskId : Nat
  trace : List Event

/-- Insert a timer entry keeping `pending` sorted by `(deadline, id)`;
equal deadlines order by ascending insertion id (spec section 4.2). -/
def insertTimer (e : TimerEntry) : List TimerEntry → List TimerEntry
  | [] => [e]
  | x :: xs =>
    if e.deadline < x.deadline ∨ (e.deadline = x.deadline ∧ e.timerId < x.timerId)
    then e :: x :: xs
    else x :: insertTimer e xs

/-- Register a timer for a task that suspends on a delay: insert the
entry and park the continuation among the blocked tasks. -/
def registerDelay (tid deadline : Nat) (k : Prog) (s : SimState) : SimState :=
  let e : TimerEntry := ⟨deadline, s.time.nextTimerId, tid⟩
  { s with
    time := { s.time with
      pending := insertTimer e s.time.pending
      nextTimerId := s.time.nextTimerId + 1 }
    blocked := s.blocked ++ [(tid, k)] }

/-- The buffered bytes of a link. -/
def getBuf (links : List (Nat × List Nat)) (link : Nat) : List Nat :=
  match links with
  | [] => []
  | (l, b) :: rest => if l = link then b else getBuf rest link

/-- Replace the buffered bytes of a link. -/
def setBuf (links : List (Nat × List Nat)) (link : Nat) (b : List Nat) :
    List (Nat × List Nat) :=
  match links with
  | [] => [(link, b)]
  | (l, b0) :: rest =>
    if l = link then (link, b) :: rest else (l, b0) :: setBuf rest link b

/-- Move every task waiting on the given link into the next turn's
queue (a waker fired during turn `t` schedules the task for `t+1`). -/
def wakeRecvWaiters (link : Nat) (s : SimState) : SimState :=
  { s with
    recvWaiters := s.recvWaiters.filter fun w => decide (w.1 ≠ link)
    nextReady := s.nextReady ++
      (s.recvWaiters.filter fun w => decide (w.1 = link)).map Prod.snd }

/-- Poll one task until it completes or suspends. `now()`, spawning,
PRNG draws and buffered sends never suspend; a delay with a deadline in
the future registers a timer and blocks; a read from an empty link
buffer blocks on the link. -/
def pollTask (tid : Nat) (s : SimState) : Prog → SimState
  | Prog.done => s
  | Prog.getNow k =>
    pollTask tid
      { s with trace := s.trace ++ [Event.obsNow tid s.time.now] }
      (k s.time.now)
  | Prog.delay deadline k =>
    if deadline ≤ s.time.now then pollTask tid s k
    else registerDelay tid deadline k s
  | Prog.delay_from d k =>
    if s.time.now + d ≤ s.time.now then pollTask tid s k
    else registerDelay tid (s.time.now + d) k s
  | Prog.spawn child k =>
    pollTask tid
      { s with
        nextReady := s.nextReady ++ [⟨s.nextTaskId, child⟩]
        nextTaskId := s.nextTaskId + 1 }
      k
  | Prog.draw k =>
    pollTask tid { s with random := (s.random.next_u64).2 }
      (k (s.random.next_u64).1)
  | Prog.send link bytes k =>
    pollTask tid
      (wakeRecvWaiters link
        { s with
          links := setBuf s.links link (getBuf s.links link ++ bytes)
          trace := s.trace ++ [Event.deliver link bytes] })
      k
  | Prog.recv link k =>
    match getBuf s.links link with
    | [] =>
      { s with recvWaiters := s.recvWaiters ++ [(link, ⟨tid, Prog.recv link k⟩)] }
    | b :: bs =>
      pollTask tid { s with links := setBuf s.links link [] } (k (b :: bs))

/-- Poll each task of one turn's queue, front to back. -/
def runReady : List SimTask → SimState → SimState
  | [], s => s
  | t :: rest, s => runReady rest (pollTask t.taskId s t.prog)

/-- The earliest pending deadline (the head, since `pending` is kept
sorted by `(deadline, id)`). -/
def nextDeadline (pending : List TimerEntry) : Option Nat :=
  match pending with
  | [] => none
  | e :: _ => some e.deadline

/-- Remove a blocked task's continuation by task id. -/
def takeBlocked (tid : Nat) : List (Nat × Prog) → Option Prog × List (Nat × Prog)
  | [] => (none, [])
  | (t, p) :: rest =>
    if t = tid then (some p, rest)
    else
      let r := takeBlocked tid rest
      (r.1, (t, p) :: r.2)

/-- Fire one timer entry: wake the blocked task it belongs to into the
ready queue (wakers are invoked before `park` returns). -/
def fireEntry (s : SimState) (e : TimerEntry) : SimState :=
  let r := takeBlocked e.taskId s.blocked
  match r.1 with
  | some p => { s with blocked := r.2, ready := s.ready ++ [⟨e.taskId, p⟩] }
  | none => s

/-- Split the sorted pending list into the prefix of entries with
`deadline ≤ dl` (the timers that fire) and the remainder. -/
def splitFired (dl : Nat) : List TimerEntry → List TimerEntry × List TimerEntry
  | [] => ([], [])
  | e :: rest =>
    if e.deadline ≤ dl then
      let r := splitFired dl rest
      (e :: r.1, r.2)
    else ([], e :: rest)

/-- `park`: advance `now` to the earliest pending deadline and fire
every timer with `deadline ≤ now`, in `(deadline, id)` order. -/
def park (dl : Nat) (s : SimState) : SimState :=
  let split := splitFired dl s.time.pending
  split.1.foldl fireEntry
    { s with time := { s.time with now := dl, pending := split.2 } }

/-- The scheduler loop, fuelled: drain the ready queue one turn at a
time; when a turn ends, promote the next turn's queue; when no task is
ready, park on the clock; when additionally no timer is pending, the
run is over and the state is final. -/
def simRun : Nat → SimState → SimState
  | 0, s => s
  | n + 1, s =>
    match s.ready with
    | t :: ts => simRun n (runReady (t :: ts) { s with ready := [] })
    | [] =>
      match s.nextReady with
      | q :: qs => simRun n { s with ready := q :: qs, nextReady := [] }
      | [] =>
        match nextDeadline s.time.pending with
        | some dl => simRun n (park dl s)
        | none => s

/-- The initial simulation state for a runtime and a main program: the
runtime's clock and PRNG as constructed, the main program as task 0. -/
def runtimeInitialState (rt : DeterministicRuntime) (mainProg : Prog) : SimState :=
  { time := rt.time_handle
    random := rt.random
    ready := [⟨0, mainProg⟩]
    nextReady := []
    blocked := []
    recvWaiters := []
    links := []
    nextTaskId := 1
    trace := [] }

/-- Run a program on the runtime built by `new_with_seed seed` (with a
successfully constructed reactor) and return the event trace. -/
def runSimulation (seed : Nat) (prog : Prog) (fuel : Nat) : List Event :=
  match DeterministicRuntime.new_with_seed seed (IOResult.ok ⟨0⟩) with
  | Except.ok p => (simRun fuel (runtimeInitialState p.1 prog)).trace
  | Except.error _ => []

/-- The `now()` observations of a trace, in order, with observing task. -/
def nowObservations (tr : List Event) : List (Nat × Nat) :=
  tr.filterMap fun e =>
    match e with
    | Event.obsNow tid t => some (tid, t)
    | _ => none

/-- The bytes delivered on one link over a trace, in delivery order. -/
def deliveredBytes (link : Nat) (tr : List Event) : List Nat :=
  tr.foldr
    (fun e acc =>
      match e with
      | Event.deliver l bs => if l = link then bs ++ acc else acc
      | _ => acc)
    []

/-- A helper for stating C10: run a program on the runtime produced by
an arbitrary builder function, returning the event trace. -/
def runSimulationWith
    (build : IOResult Reactor → Except RError (DeterministicRuntime × List Component))
    (r : IOResult Reactor) (prog : Prog) (fuel : Nat) : List Event :=
  match build r with
  | Except.ok p => (simRun fuel (runtimeInitialState p.1 prog)).trace
  | Except.error _ => []

/-- C1: two runs of the runtime constructed with the same u64 seed and
driving the same application code observe the identical sequence of
`now()` values and the identical bytes delivered across every socket
link. -/
theorem runtime_determinism (seed₁ seed₂ : Nat) (prog₁ prog₂ : Prog)
    (fuel : Nat) (hseed : seed₁ = seed₂) (hprog : prog₁ = prog₂) :
    nowObservations (runSimulation seed₁ prog₁ fuel) =
      nowObservations (runSimulation seed₂ prog₂ fuel) ∧
    ∀ link, deliveredBytes link (runSimulation seed₁ prog₁ fuel) =
      deliveredBytes link (runSimulation seed₂ prog₂ fuel) := by
  subst hseed
  subst hprog
  exact ⟨rfl, fun _ => rfl⟩

/-- A concrete program observing the clock and delivering a byte. -/
def witnessProg : Prog :=
  Prog.getNow fun _ => Prog.send 0 [65] Prog.done

/-- Witness for C1 at seed 42 and a concrete program. -/
theorem runtime_determinism_witness :
    nowObservations (runSimulation 42 witnessProg 3) =
      nowObservations (runSimulation 42 witnessProg 3) ∧
    ∀ link, deliveredBytes link (runSimulation 42 witnessProg 3) =
      deliveredBytes link (runSimulation 42 witnessProg 3) :=
  runtime_determinism 42 42 witnessProg witnessProg 3 rfl rfl

/-- C3: after forking a child from a parent PRNG, any session of draws
and further forks that only ever touches the child or its descendants
(handle indices ≥ 1; the parent sits at index 0) leaves the parent's
future stream of draws exactly what it was right after the fork. -/
theorem prng_fork_parent_stream_independent (p : DeterministicRandom)
    (ops : List PrngOp) (n : Nat)
    (hchild : ∀ op ∈ ops, 1 ≤ op.handleIndex) :
    headDraws (applyOps [(p.fork).2, (p.fork).1] ops) n =
      ((p.fork).2).draws n := by
  unfold headDraws
  rw [applyOps_head? _ _ hchild]
  rfl

/-- Witness for C3: a concrete session drawing from and forking only
the child leaves the parent stream unchanged. -/
theorem prng_fork_parent_stream_independent_witness :
    headDraws
      (applyOps [((DeterministicRandom.new_with_seed 5).fork).2,
        ((DeterministicRandom.new_with_seed 5).fork).1]
        [PrngOp.draw 1, PrngOp.fork 1, PrngOp.draw 2, PrngOp.draw 1]) 3 =
      (((DeterministicRandom.new_with_seed 5).fork).2).draws 3 :=
  prng_fork_parent_stream_independent (DeterministicRandom.new_with_seed 5)
    [PrngOp.draw 1, PrngOp.fork 1, PrngOp.draw 2, PrngOp.draw 1] 3 (by decide)

/-- C5: whenever every connection buffered in the listener's inbound
channel reports its peer address successfully, `accept` yields the
sockets in exactly the FIFO order in which they arrived, and so does
the stream obtained from `into_stream`: the first `n` accepts yield
precisely the first `n` queued sockets, none reordered, duplicated or
skipped. -/
theorem listener_accept_fifo (l : Listener) (n : Nat)
    (h : ∀ s ∈ l.incoming.queue, ∃ a, s.peer_addr = IOResult.ok a) :
    acceptedSockets (l.acceptN n).1 = l.incoming.queue.take n ∧
    (l.into_stream).collectN n = l.incoming.queue.take n :=
  ⟨acceptN_fifo l n h, collectN_fifo l.into_stream n⟩

/-- A first concrete inbound socket. -/
def sockA : SimSocket := ⟨1, IOResult.ok ⟨1, 80⟩⟩

/-- A second concrete inbound socket. -/
def sockB : SimSocket := ⟨2, IOResult.ok ⟨2, 81⟩⟩

/-- Witness for C5: two buffered connections come out in arrival order
from both `accept` and the stream. -/
theorem listener_accept_fifo_witness :
    acceptedSockets ((Listener.new ⟨0, 80⟩ ⟨[sockA, sockB], true⟩).acceptN 2).1 =
      [sockA, sockB].take 2 ∧
    ((Listener.new ⟨0, 80⟩ ⟨[sockA, sockB], true⟩).into_stream).collectN 2 =
      [sockA, sockB].take 2 :=
  listener_accept_fifo (Listener.new ⟨0, 80⟩ ⟨[sockA, sockB], true⟩) 2
    (by
      intro s hs
      have hs1 : s ∈ [sockA, sockB] := hs
      have hs2 : s = sockA ∨ s = sockB := by simpa using hs1
      rcases hs2 with rfl | rfl
      · exact ⟨⟨1, 80⟩, rfl⟩
      · exact ⟨⟨2, 81⟩, rfl⟩)

/-- C6: `accept` on a listener whose inbound channel is closed (sender
dropped, no buffered connections) returns the `NotConnected` error kind;
in particular the call resolves rather than suspending. -/
theorem accept_closed_not_connected (l : Listener)
    (hq : l.incoming.queue = [])
    (hclosed : l.incoming.senderAlive = false) :
    (l.accept).1 = AcceptOutcome.err ⟨IOErrorKind.NotConnected⟩ ∧
    (l.accept).1 ≠ AcceptOutcome.pending := by
  rcases l with ⟨a, q, alive⟩
  simp only at hq hclosed
  subst hq
  subst hclosed
  exact ⟨rfl, by simp [Listener.accept, Receiver.next]⟩

/-- Witness for C6 on a concrete closed listener. -/
theorem accept_closed_not_connected_witness :
    ((Listener.new ⟨0, 80⟩ ⟨[], false⟩).accept).1 =
      AcceptOutcome.err ⟨IOErrorKind.NotConnected⟩ ∧
    ((Listener.new ⟨0, 80⟩ ⟨[], false⟩).accept).1 ≠ AcceptOutcome.pending :=
  accept_closed_not_connected (Listener.new ⟨0, 80⟩ ⟨[], false⟩) rfl rfl

/-- C8: a successful `accept` returns alongside the socket exactly the
socket's own `peer_addr`, and when the front socket's `peer_addr` query
fails, `accept` propagates that error instead of returning the socket. -/
theorem accept_addr_matches_peer_addr (l : Listener) :
    (∀ s a, (l.accept).1 = AcceptOutcome.ok s a →
      s.peer_addr = IOResult.ok a) ∧
    (∀ s rest e, l.incoming.queue = s :: rest →
      s.peer_addr = IOResult.err e → (l.accept).1 = AcceptOutcome.err e) := by
  constructor
  · intro s a h
    rcases l with ⟨la, q, alive⟩
    rcases q with _ | ⟨x, xs⟩
    · cases alive <;> simp [Listener.accept, Receiver.next] at h
    · rcases hx : x.peer_addr with xa | xe <;>
        simp [Listener.accept, Receiver.next, hx] at h
      rcases h with ⟨rfl, rfl⟩
      exact hx
  · intro s rest e hq hpa
    rcases l with ⟨la, q, alive⟩
    simp only at hq
    subst hq
    simp [Listener.accept, Receiver.next, hpa]

/-- A concrete socket whose `peer_addr` query fails. -/
def sockBad : SimSocket := ⟨3, IOResult.err ⟨IOErrorKind.ConnectionReset⟩⟩

/-- Witness for C8: the accepted address equals the socket's peer
address on a concrete listener, and a failing peer address propagates. -/
theorem accept_addr_matches_peer_addr_witness :
    sockA.peer_addr = IOResult.ok ⟨1, 80⟩ ∧
    ((Listener.new ⟨0, 80⟩ ⟨[sockBad], true⟩).accept).1 =
      AcceptOutcome.err ⟨IOErrorKind.ConnectionReset⟩ :=
  ⟨(accept_addr_matches_peer_addr (Listener.new ⟨0, 80⟩ ⟨[sockA], true⟩)).1
      sockA ⟨1, 80⟩ rfl,
    (accept_addr_matches_peer_addr (Listener.new ⟨0, 80⟩ ⟨[sockBad], true⟩)).2
      sockBad [] ⟨IOErrorKind.ConnectionReset⟩ rfl rfl⟩

/-- C9: `local_addr` always returns `Ok` of exactly the address the
listener was constructed with, after any number of `accept` calls. -/
theorem local_addr_stable (addr : SocketAddr) (rx : Receiver) (n : Nat) :
    ((Listener.new addr rx).acceptN n).2.local_addr = IOResult.ok addr := by
  unfold Listener.local_addr
  rw [acceptN_localAddr]
  rfl

/-- C4 counterexample: the construction log of `new_with_seed` is not
PRNG first — the PRNG (C1) is constructed last, not first. -/
theorem construction_order_counterexample :
    constructionLog 0 (IOResult.ok ⟨0⟩) ≠
      some [Component.randomC, Component.timeC, Component.networkC,
        Component.executorC] := by
  decide

/-- C4 (amended): constructing a runtime from a seed creates the four
core components in the order C2 (virtual clock), C4 (network fabric),
C3 (scheduler), and C1 (PRNG) last. -/
theorem construction_order (seed : Nat) (r : IOResult Reactor)
    (rt : DeterministicRuntime) (log : List Component)
    (h : DeterministicRuntime.new_with_seed seed r = Except.ok (rt, log)) :
    log = [Component.timeC, Component.networkC, Component.executorC,
      Component.randomC] := by
  rcases r with a | e
  · simp [DeterministicRuntime.new_with_seed] at h
    exact h.2.symm
  · simp [DeterministicRuntime.new_with_seed] at h

/-- Witness for C4 (amended) at a concrete seed and reactor. -/
theorem construction_order_witness :
    [Component.timeC, Component.networkC, Component.executorC,
      Component.randomC] =
    [Component.timeC, Component.networkC, Component.executorC,
      Component.randomC] :=
  construction_order 3 (IOResult.ok ⟨0⟩)
    (⟨CurrentThread.new_with_park (DeterministicTime.new_with_park ⟨0⟩),
      DeterministicTime.new_with_park ⟨0⟩,
      DeterministicNetwork.new (DeterministicTime.new_with_park ⟨0⟩),
      DeterministicRandom.new_with_seed 3⟩)
    [Component.timeC, Component.networkC, Component.executorC,
      Component.randomC] rfl

/-- C7: runtime construction fails with `RuntimeBuild` exactly when the
underlying reactor construction fails, and every construction failure
is a `RuntimeBuild` value returned from `new_with_seed` (hence from
`new`, which delegates to it). -/
theorem runtime_build_error_iff (seed : Nat) (r : IOResult Reactor) :
    ((∃ e, DeterministicRuntime.new_with_seed seed r =
        Except.error (RError.RuntimeBuild e)) ↔ (∃ e, r = IOResult.err e)) ∧
    (∀ out, DeterministicRuntime.new_with_seed seed r = Except.error out →
      ∃ e, out = RError.RuntimeBuild e) := by
  rcases r with a | e
  · refine ⟨⟨?_, ?_⟩, ?_⟩
    · rintro ⟨e, he⟩
      simp [DeterministicRuntime.new_with_seed] at he
    · rintro ⟨e, he⟩
      cases he
    · intro out hout
      simp [DeterministicRuntime.new_with_seed] at hout
  · exact ⟨⟨fun _ => ⟨e, rfl⟩, fun _ => ⟨e, rfl⟩⟩,
      fun out hout => ⟨e, by
        simp [DeterministicRuntime.new_with_seed] at hout
        exact hout.symm⟩⟩

/-- Witness for C7: a failing reactor yields a `RuntimeBuild` error. -/
theorem runtime_build_error_iff_witness :
    ∃ e, DeterministicRuntime.new_with_seed 0
        (IOResult.err ⟨IOErrorKind.Other⟩) =
      Except.error (RError.RuntimeBuild e) :=
  (runtime_build_error_iff 0 (IOResult.err ⟨IOErrorKind.Other⟩)).1.mpr
    ⟨⟨IOErrorKind.Other⟩, rfl⟩

/-- C10: `new()` is `new_with_seed(0)`: for every reactor outcome the
constructed runtimes are equal, and driving any program for any amount
of fuel produces the identical event trace. -/
theorem new_equals_new_with_seed_zero (r : IOResult Reactor) :
    DeterministicRuntime.new r = DeterministicRuntime.new_with_seed 0 r ∧
    ∀ prog fuel,
      runSimulationWith DeterministicRuntime.new r prog fuel =
        runSimulationWith (DeterministicRuntime.new_with_seed 0) r prog fuel :=
  ⟨rfl, fun _ _ => rfl⟩

/-- The canonical delay program: await `delay_from(d)` to completion,
then observe `now()`. -/
def delayThenObserve (d : Nat) : Prog :=
  Prog.delay_from d (Prog.getNow fun _ => Prog.done)

/-- A fresh simulation state whose virtual clock reads `t`, driving a
single task. -/
def stateAt (t : Nat) (p : Prog) : SimState :=
  { time := ⟨⟨0⟩, t, [], 0⟩
    random := DeterministicRandom.new_with_seed 0
    ready := [⟨0, p⟩]
    nextReady := []
    blocked := []
    recvWaiters := []
    links := []
    nextTaskId := 1
    trace := [] }

lemma pollTask_delay_from_eq (tid : Nat) (s : SimState) (d : Nat) (k : Prog) :
    pollTask tid s (Prog.delay_from d k) =
      if s.time.now + d ≤ s.time.now then pollTask tid s k
      else registerDelay tid (s.time.now + d) k s := rfl

lemma pollTask_delay_from_ge (tid : Nat) (s : SimState) (d : Nat) (k : Prog)
    (h : ¬ s.time.now + d ≤ s.time.now) :
    pollTask tid s (Prog.delay_from d k) =
      registerDelay tid (s.time.now + d) k s := by
  rw [pollTask_delay_from_eq, if_neg h]

lemma pollTask_delay_from_zero (tid : Nat) (s : SimState) (k : Prog) :
    pollTask tid s (Prog.delay_from 0 k) = pollTask tid s k := by
  have h0 : s.time.now + 0 ≤ s.time.now := Nat.le_refl _
  rw [pollTask_delay_from_eq, if_pos h0]

lemma splitFired_cons_eq (dl : Nat) (e : TimerEntry) (rest : List TimerEntry) :
    splitFired dl (e :: rest) =
      if e.deadline ≤ dl then
        (e :: (splitFired dl rest).1, (splitFired dl rest).2)
      else ([], e :: rest) := rfl

lemma splitFired_cons_le (dl : Nat) (e : TimerEntry) (rest : List TimerEntry)
    (h : e.deadline ≤ dl) :
    splitFired dl (e :: rest) =
      (e :: (splitFired dl rest).1, (splitFired dl rest).2) := by
  rw [splitFired_cons_eq, if_pos h]

lemma park_eq (dl : Nat) (s : SimState) :
    park dl s = (splitFired dl s.time.pending).1.foldl fireEntry
      { s with time := { s.time with
        now := dl, pending := (splitFired dl s.time.pending).2 } } := rfl

lemma simRun_delay_pos (t e : Nat) :
    simRun 4 (stateAt t (delayThenObserve (e + 1))) =
      { time := ⟨⟨0⟩, t + (e + 1), [], 1⟩
        random := DeterministicRandom.new_with_seed 0
        ready := []
        nextReady := []
        blocked := []
        recvWaiters := []
        links := []
        nextTaskId := 1
        trace := [Event.obsNow 0 (t + (e + 1))] } := by
  have h1 : ¬ (t + (e + 1) ≤ t) := by omega
  show simRun 3 (pollTask 0
    { stateAt t (delayThenObserve (e + 1)) with ready := [] }
    (Prog.delay_from (e + 1) (Prog.getNow fun _ => Prog.done))) = _
  rw [pollTask_delay_from_ge 0 _ (e + 1) _ h1]
  show simRun 2 (park (t + (e + 1))
    { time := ⟨⟨0⟩, t, [⟨t + (e + 1), 0, 0⟩], 1⟩
      random := DeterministicRandom.new_with_seed 0
      ready := []
      nextReady := []
      blocked := [(0, Prog.getNow fun _ => Prog.done)]
      recvWaiters := []
      links := []
      nextTaskId := 1
      trace := [] }) = _
  have hsplit : splitFired (t + (e + 1)) [⟨t + (e + 1), 0, 0⟩] =
      ([⟨t + (e + 1), 0, 0⟩], []) := by
    rw [splitFired_cons_le (t + (e + 1)) ⟨t + (e + 1), 0, 0⟩ [] (Nat.le_refl _)]
    rfl
  rw [park_eq, hsplit]
  rfl

/-- C2: a task that awaits a delay of duration `d` to completion
starting at virtual time `t` observes `now() = t + d` exactly when the
await completes — no drift and no rounding, for every `t` and `d`. -/
theorem delay_advances_exactly (t d : Nat) :
    (simRun 4 (stateAt t (delayThenObserve d))).trace =
      [Event.obsNow 0 (t + d)] ∧
    (simRun 4 (stateAt t (delayThenObserve d))).time.now = t + d := by
  rcases d with _ | e
  · constructor
    · show (simRun 3 (pollTask 0
        { stateAt t (delayThenObserve 0) with ready := [] }
        (Prog.delay_from 0 (Prog.getNow fun _ => Prog.done)))).trace = _
      rw [pollTask_delay_from_zero]
      rfl
    · show (simRun 3 (pollTask 0
        { stateAt t (delayThenObserve 0) with ready := [] }
        (Prog.delay_from 0 (Prog.getNow fun _ => Prog.done)))).time.now = _
      rw [pollTask_delay_from_zero]
      rfl
  · constructor
    · rw [simRun_delay_pos]
    · rw [simRun_delay_pos]

end Simulation
